import Mathlib

/-!
Verification development for the DockerManager terminal dashboard.

This file gives a shallow embedding, in Lean, of the pure data-transformation
core of the program: the service layer (`service.py`), the log stream decoder
(`container_logs.py`), the log/shell session buffers and the shell output
splitter (`container_action_menu.py`), the exec-session fallback logic
(`container_exec.py`), and the reconciliation step of the manager
(`managers/docker_manager.py`).  Network and widget effects are modelled by
passing the response of each runtime call in as data; Python exceptions are
modelled with `Except`.
-/

set_option autoImplicit false

namespace DockerSpec

/-! ## String helpers shared by several modules -/

/-- The whitespace set of Python `str.strip()` with no arguments. -/
def isPySpace (c : Char) : Bool :=
  c = ' ' || c = '\t' || c = '\n' || c = '\r' || c = '\x0b' || c = '\x0c'

/-- Python `s.strip() == ""`: every character is whitespace. -/
def strippedEmpty (s : String) : Bool :=
  s.toList.all isPySpace

/-- Python substring test `pat in s`, on character lists. -/
def hasSub (pat : List Char) : List Char → Bool
  | [] => pat.isEmpty
  | c :: t => pat.isPrefixOf (c :: t) || hasSub pat t

/-- Python substring test `pat in s`, on strings. -/
def containsStr (s pat : String) : Bool :=
  hasSub pat.toList s.toList

/-- Python `s.split(pat, 1)`: the part before the first occurrence of `pat`
and the part after it (callers establish that `pat` occurs in `s`). -/
def splitFirst (pat : List Char) : List Char → List Char × List Char
  | [] => ([], [])
  | c :: t =>
    if pat.isPrefixOf (c :: t) then ([], (c :: t).drop pat.length)
    else
      let p := splitFirst pat t
      (c :: p.1, p.2)

/-- Python `s.lstrip("/")`: drop leading slash characters. -/
def lstripSlashes (s : String) : String :=
  String.mk (s.toList.dropWhile (fun c => c = '/'))

/-- The duplicate-removal comprehension of `_format_ports`:
`[part for i, part in enumerate(parts) if part not in parts[:i]]`
(keep the first occurrence of each element, in order). -/
def pyDedupe (seen : List String) : List String → List String
  | [] => []
  | x :: rest =>
    if x ∈ seen then pyDedupe seen rest else x :: pyDedupe (x :: seen) rest

/-! ## `service.py`

`get_projects_with_containers` and the container mutation helpers.  The HTTP
layer is modelled by passing the response of `session.get` in as data; the
Python exceptions that can escape the function body (only the tuple unpack
inside `_shorten_image` can raise there, since the `try` wraps just the
request) are modelled with `Except`. -/

namespace Service

/-- One element of the `Ports` field of a container: a dict with optional
`PrivatePort`, `PublicPort` and `Type` keys. -/
structure PortEntry where
  privatePort : Option Int
  publicPort : Option Int
  portType : Option String
deriving DecidableEq, Repr

/-- The fields of one element of the `/containers/json` response body that
`service.py` reads.  `names` is `container.get("Names") or []`; `nameField`
is the `"Name"` key used as fallback; absent keys are `none`/defaults. -/
structure ContainerJson where
  id : String
  names : List String
  nameField : Option String
  image : String
  status : String
  labels : List (String × String)
  ports : Option (List PortEntry)
  created : Option Int
deriving DecidableEq, Repr

/-- Python `ContainerTuple7`: `(idx, short_id, name, image, status, ports, created)`. -/
structure Tuple7 where
  idx : Int
  cid : String
  name : String
  image : String
  status : String
  ports : String
  created : String
deriving DecidableEq, Repr

/-- The insertion-ordered dict `project name -> list of container tuples`. -/
abbrev ProjectMap := List (String × List Tuple7)

/-- Python `_safe_get_name`: first entry of `Names` without leading slashes, else the
`Name` key, else `"unknown"`. -/
def safe_get_name (c : ContainerJson) : String :=
  match c.names with
  | n :: _ => lstripSlashes n
  | [] => c.nameField.getD ("unknown")

/-- Python `str(...)` on the optional private port (`str(None)` is `"None"`). -/
def optIntStr : Option Int → String
  | some n => toString n
  | none => ("None")

/-- The strings contributed by one port entry in `_format_ports`. -/
def portPart (p : PortEntry) : List String :=
  let proto := p.portType.getD ("tcp")
  match p.publicPort with
  | some pub => [toString pub ++ (":") ++ optIntStr p.privatePort ++ ("/") ++ proto]
  | none =>
    match p.privatePort with
    | some priv => [toString priv ++ ("/") ++ proto]
    | none => []

/-- Python `_format_ports`: formatted, de-duplicated, comma-joined port mappings.
`none` stands for an absent/`None` `Ports` field. -/
def format_ports : Option (List PortEntry) → String
  | none => ""
  | some ps =>
    if ps.isEmpty then ("") else
    String.intercalate (", ") (pyDedupe [] (ps.foldl (fun acc p => acc ++ portPart p) []))

/-- Python `_format_created`: an integer timestamp is rendered through the library
formatter `fmtTime` (`datetime.fromtimestamp(..).strftime`, kept abstract);
a missing value falls into the `except` branch which yields `str(None or "")`. -/
def format_created (fmtTime : Int → String) : Option Int → String
  | some ts => fmtTime ts
  | none => ""

/-- The `ValueError` raised by `name, digest = image.split("@")` when the
split does not have exactly two parts. -/
def unpackErr2 : String := "ValueError: too many values to unpack (expected 2)"

/-- Python `_shorten_image`.  The two-target unpack of `image.split("@")` raises when
the image string holds more than one `@`, so the result is an `Except`. -/
def shorten_image (image : String) : Except String String :=
  if image = "" then .ok ("unknown")
  else if containsStr image ("sha256:") then
    (let parts := image.splitOn (":")
     if parts.length == 2 && parts.getD 0 ("") == ("sha256") then
       .ok (("sha256:") ++ (parts.getD 1 ("")).take 30)
     else if containsStr image ("@") then
       match image.splitOn ("@") with
       | [name, digest] =>
         if digest.startsWith ("sha256:") then
           .ok (name ++ ("@sha256:") ++ ((digest.splitOn (":")).getD 1 ("")).take 30)
         else .ok image
       | _ => .error unpackErr2
     else .ok image)
  else .ok image

/-- Python `projects.setdefault(project, []).append(container_info)` on the
insertion-ordered map. -/
def appendToKey (m : ProjectMap) (k : String) (v : Tuple7) : ProjectMap :=
  match m with
  | [] => [(k, [v])]
  | (k2, vs) :: rest =>
    if k2 = k then (k2, vs ++ [v]) :: rest else (k2, vs) :: appendToKey rest k v

/-- The compose label key used for grouping. -/
def composeProjectLabel : String := "com.docker.compose.project"

/-- Python `labels.get(key)` on the label dict. -/
def lookupLabel (labels : List (String × String)) (key : String) : Option String :=
  (labels.find? (fun p => p.1 = key)).map (fun p => p.2)

/-- Python `labels.get("com.docker.compose.project", "Uncategorized")`. -/
def projectOf (c : ContainerJson) : String :=
  (lookupLabel c.labels composeProjectLabel).getD ("Uncategorized")

/-- The grouping loop of `get_projects_with_containers`: `idx` is the
`enumerate` counter, `acc` the map built so far. -/
def buildProjectsGo (fmtTime : Int → String) :
    Nat → List ContainerJson → ProjectMap → Except String ProjectMap
  | _, [], acc => .ok acc
  | idx, c :: rest, acc =>
    match shorten_image c.image with
    | .error e => .error e
    | .ok image =>
      let t : Tuple7 :=
        ⟨(idx : Int) + 1, c.id.take 12, safe_get_name c, image, c.status,
          format_ports c.ports, format_created fmtTime c.created⟩
      buildProjectsGo fmtTime (idx + 1) rest (appendToKey acc (projectOf c) t)

/-- The response of `session.get(".../containers/json", params=all)`: either a
transport-level exception or an HTTP status plus parsed JSON body. -/
inductive ListResponse where
  | exn (msg : String)
  | resp (status : Nat) (body : List ContainerJson)
deriving Repr

def naStr : String := "N/A"

def errorKey : String := "Error"

def noProjectsKey : String := "No Projects"

def uncategorizedKey : String := "Uncategorized"

/-- Python `(0, "N/A", "Error", "N/A", msg, "N/A", "N/A")`. -/
def errTuple (msg : String) : Tuple7 := ⟨0, naStr, errorKey, naStr, msg, naStr, naStr⟩

/-- Python `(0, "N/A", "No containers", "", "", "", "")`. -/
def noContainersTuple : Tuple7 := ⟨0, naStr, ("No containers"), "", "", "", ""⟩

/-- Python `get_projects_with_containers`, as a function of the list response. -/
def get_projects_with_containers (fmtTime : Int → String) :
    ListResponse → Except String ProjectMap
  | .exn e => .ok [(errorKey, [errTuple (("Request failed: ") ++ e)])]
  | .resp status body =>
    if status ≠ 200 then .ok [(errorKey, [errTuple (("HTTP ") ++ toString status)])]
    else if body.isEmpty then .ok [(noProjectsKey, [noContainersTuple])]
    else buildProjectsGo fmtTime 0 body []

/-- Python `start_container`, as a function of the response status of the POST:
`resp.status_code == 204`. -/
def start_container (status : Nat) : Bool := status == 204

/-- Python `stop_container`, as a function of the response status of the POST:
`resp.status_code in (204, 304)`. -/
def stop_container (status : Nat) : Bool := status == 204 || status == 304

/-- Python `delete_container`, as a function of the response status of the DELETE:
`resp.status_code in (204, 404)`. -/
def delete_container (status : Nat) : Bool := status == 204 || status == 404

/-- Environment model of the runtime the spec describes: the containers the
daemon knows, each with a running flag. -/
abbrev Daemon := List (String × Bool)

/-- The stop endpoint of the runtime as the spec and the Docker API describe it:
`404` for an unknown id, `204` for a running container (which stops), `304`
("already stopped") otherwise. -/
def stopEndpoint (d : Daemon) (cid : String) : Nat × Daemon :=
  match d.find? (fun p => p.1 = cid) with
  | none => (404, d)
  | some pr =>
    if pr.2 then (204, d.map (fun p => if p.1 = cid then (p.1, false) else p))
    else (304, d)

/-- The delete endpoint of the runtime: `404` for an unknown id, `204` otherwise
(the container is removed). -/
def deleteEndpoint (d : Daemon) (cid : String) : Nat × Daemon :=
  if (d.find? (fun p => p.1 = cid)).isSome then (204, d.filter (fun p => p.1 ≠ cid))
  else (404, d)

/-- The parsed body carried by a list response (none on a transport error). -/
def bodyOf : ListResponse → List ContainerJson
  | .exn _ => []
  | .resp _ body => body

end Service

/-! ## `container_logs.py`

The multiplexed-frame handling of `stream_logs`: for each non-empty chunk of
`response.iter_lines`, `line = chunk[8:] if len(chunk) > 8 else chunk` before
decoding.  Chunks are byte lists. -/

namespace Logs

/-- The header-stripping step applied to each non-empty chunk:
`chunk[8:] if len(chunk) > 8 else chunk`. -/
def stripLogHeader (chunk : List Nat) : List Nat :=
  if 8 < chunk.length then chunk.drop 8 else chunk

end Logs

/-! ## `container_action_menu.py` -/

namespace Menu

/-- One iteration of the buffer maintenance in `ContainerActionScreen.stream_logs`:
`self.log_lines.append(line)` then `if len(self.log_lines) > 1000:
self.log_lines.pop(0)`. -/
def appendLogLine (log_lines : List String) (line : String) : List String :=
  let ls := log_lines ++ [line]
  if 1000 < ls.length then ls.drop 1 else ls

/-- The marker inserted by `read_shell_output` on truncation. -/
def truncationMarker : String := "[dim]... older output truncated ...[/dim]\n"

/-- Python `list.insert(-1, entry)`: insert just before the last element
(on an empty list the entry becomes the only element). -/
def insertBeforeLast : List String → String → List String
  | [], entry => [entry]
  | [x], entry => [entry, x]
  | x :: y :: rest, entry => x :: insertBeforeLast (y :: rest) entry

/-- The non-realtime buffer update of `read_shell_output` for one split-off
line: a non-blank line first triggers the lazy cap (`if len > 1000:` keep the
last 900 and append the truncation marker) and is then inserted above the
trailing prompt; a blank line inserts just its `line_end`, with no cap check. -/
def handleShellLine (shell_lines : List String) (clean_line line_end : String) :
    List String :=
  if strippedEmpty clean_line = false then
    (let ls :=
      if 1000 < shell_lines.length then
        shell_lines.drop (shell_lines.length - 900) ++ [truncationMarker]
      else shell_lines
     insertBeforeLast ls (clean_line ++ line_end))
  else insertBeforeLast shell_lines line_end

/-- One iteration of the line-splitting loop of `read_shell_output`:
`while "\n" in buffer or "\r" in buffer:` then split on the first occurrence
of `"\r\n"`, else of `"\n"`, else of `"\r"`, in that priority order.  Returns
`(line, separator, rest_of_buffer)`, or `none` when the loop exits. -/
def splitNext (buffer : List Char) : Option (List Char × List Char × List Char) :=
  if hasSub ['\n'] buffer || hasSub ['\r'] buffer then
    if hasSub ['\r', '\n'] buffer then
      (let p := splitFirst ['\r', '\n'] buffer
       some (p.1, ['\r', '\n'], p.2))
    else if hasSub ['\n'] buffer then
      (let p := splitFirst ['\n'] buffer
       some (p.1, ['\n'], p.2))
    else if hasSub ['\r'] buffer then
      (let p := splitFirst ['\r'] buffer
       some (p.1, ['\r'], p.2))
    else none
  else none

/-- The splitting loop run to completion, with explicit fuel (each iteration
strictly shortens the buffer, so `buffer.length` fuel is enough; see the
adequacy theorems).  Returns the `(line, separator)` pairs in emission order
and the remaining partial-line buffer. -/
def processBufferFuel : Nat → List Char → List (List Char × List Char) × List Char
  | 0, buffer => ([], buffer)
  | fuel + 1, buffer =>
    match splitNext buffer with
    | none => ([], buffer)
    | some (line, sep, rest) =>
      let p := processBufferFuel fuel rest
      ((line, sep) :: p.1, p.2)

/-- The splitting loop of `read_shell_output` on one accumulated buffer. -/
def processBuffer (buffer : List Char) : List (List Char × List Char) × List Char :=
  processBufferFuel buffer.length buffer

/-- Python `re.sub(r"([\[\]])", r"\\\1", line)`: a backslash is inserted before every
square bracket. -/
def escapeBrackets : List Char → List Char
  | [] => []
  | c :: t =>
    if c = '[' || c = ']' then '\\' :: c :: escapeBrackets t
    else c :: escapeBrackets t

/-- Python `escaped_line.upper()`. -/
def upperList (l : List Char) : List Char := l.map Char.toUpper

/-- Python `f"[{color}]{escaped_line}[/{color}]"`. -/
def tagWith (color : String) (escaped : List Char) : List Char :=
  (("[") ++ color ++ ("]")).toList ++ escaped ++ (("[/") ++ color ++ ("]")).toList

def errorPat : List Char := "ERROR".toList

def fatalPat : List Char := "FATAL".toList

def warnPat : List Char := "WARN".toList

def infoPat : List Char := "INFO".toList

def debugPat : List Char := "DEBUG".toList

/-- Python `ContainerActionScreen.colorize_log`. -/
def colorize_log (line : List Char) : List Char :=
  let escaped := escapeBrackets line
  let upper := upperList escaped
  if hasSub errorPat upper || hasSub fatalPat upper then tagWith ("red") escaped
  else if hasSub warnPat upper then tagWith ("yellow") escaped
  else if hasSub infoPat upper then tagWith ("green") escaped
  else if hasSub debugPat upper then tagWith ("blue") escaped
  else escaped

/-- Case-insensitive containment of a (bracket-free, uppercase) pattern in a
line, as the spec phrases it: "a line containing `ERROR` (case-insensitive)". -/
def containsCI (line pat : List Char) : Bool :=
  hasSub pat (upperList line)

/-- A pattern with no backslash and no square bracket (all five severity
keywords qualify); for such patterns bracket-escaping cannot affect
containment. -/
def patNoMarkup (pat : List Char) : Prop :=
  ∀ c ∈ pat, c ≠ '\\' ∧ c ≠ '[' ∧ c ≠ ']'

/-- Concatenate the `(line, separator)` pairs a splitting run emitted. -/
def joinPieces (ps : List (List Char × List Char)) : List Char :=
  ps.foldr (fun p acc => p.1 ++ p.2 ++ acc) []

/-- The buffer contents right after a successful `action_open_shell`:
the connecting notice, the connected banner, and the trailing prompt. -/
def shellStartBuffer : List String :=
  [("[yellow]Connecting to shell...[/yellow]\n"), ("[green]Connected to shell[/green]\n"), ("$ ")]

/-- Feed a sequence of already-split non-realtime output lines (each with a
`"\n"` separator) through the shell buffer update. -/
def feedShellLines (start ls : List String) : List String :=
  ls.foldl (fun acc l => handleShellLine acc l ("\n")) start

end Menu

/-! ## `container_exec.py`

The exec-session helpers.  Each `session.post` is modelled by a function from
the posted config to its result (a transport exception or a response). -/

namespace ExecApi

/-- An exec-creation config: the attach flags, `Tty`, and `Cmd`. -/
structure ExecConfig where
  attachStdin : Bool
  attachStdout : Bool
  attachStderr : Bool
  tty : Bool
  cmd : List String
deriving DecidableEq, Repr

/-- The result of one `session.post`: a raised transport exception or a
response with its status and (when present) the `Id` of the created exec. -/
inductive PostResult where
  | exn (msg : String)
  | resp (status : Nat) (execId : String)
deriving DecidableEq, Repr

/-- An interactive shell config of `create_exec_instance` (all attach flags
and `Tty` true). -/
def mkShellConfig (cmd : List String) : ExecConfig := ⟨true, true, true, true, cmd⟩

/-- The `shell_configs` list, in source order. -/
def shell_configs : List ExecConfig :=
  [mkShellConfig [("/bin/sh"), ("-i")],
   mkShellConfig [("/bin/bash"), ("-i")],
   mkShellConfig [("sh"), ("-i")],
   mkShellConfig [("/bin/sh"), ("-c"), ("exec /bin/sh")]]

/-- The final fallback config, `Cmd: ["sh"]`. -/
def basic_config : ExecConfig := ⟨true, true, true, true, [("sh")]⟩

/-- A config is accepted when the post returns (no exception) with a 200/201
status. -/
def accepted : PostResult → Bool
  | .resp s _ => s == 200 || s == 201
  | .exn _ => false

def execIdOf : PostResult → String
  | .resp _ i => i
  | .exn _ => ""

/-- The `for config in shell_configs:` loop: an exception or a non-2xx status
moves on to the next candidate; a 200/201 response returns its exec id. -/
def tryConfigs (runtime : ExecConfig → PostResult) : List ExecConfig → Option String
  | [] => none
  | c :: rest =>
    match runtime c with
    | .exn _ => tryConfigs runtime rest
    | .resp s i => if s == 200 || s == 201 then some i else tryConfigs runtime rest

def noShellMsg : String := "Could not create exec instance - no shell available"

/-- Python `create_exec_instance`: the four `shell_configs` candidates, then the
basic `["sh"]` config, then the final `raise`. -/
def create_exec_instance (runtime : ExecConfig → PostResult) : Except String String :=
  match tryConfigs runtime shell_configs with
  | some i => .ok i
  | none =>
    match runtime basic_config with
    | .resp s i => if s == 200 || s == 201 then .ok i else .error noShellMsg
    | .exn _ => .error noShellMsg

/-- The result of one HTTP call with a typed body, for the availability probe:
a raised transport exception or a status plus parsed body. -/
inductive HttpRes (α : Type) where
  | exn (msg : String)
  | resp (status : Nat) (body : α)
deriving DecidableEq, Repr

/-- The three runtime calls `check_shell_availability` makes: the container
inspect (its body reduced to the `State.Running` flag), the probe exec
creation (body: the exec `Id`), and the exec start. -/
structure ProbeEnv where
  inspect : HttpRes Bool
  execCreate : HttpRes String
  execStart : HttpRes Unit
deriving Repr

/-- The `try` suite of `check_shell_availability` plus the function-level
`return False` fallthrough; `.error` is an exception escaping the suite. -/
def probeBody (env : ProbeEnv) : Except String Bool :=
  match env.inspect with
  | .exn e => .error e
  | .resp status running =>
    if status ≠ 200 then .ok false
    else if running = false then .ok false
    else
      match env.execCreate with
      | .exn e => .error e
      | .resp st2 _ =>
        if st2 = 201 then
          match env.execStart with
          | .exn e => .error e
          | .resp st3 _ => .ok (st3 == 200)
        else .ok false

/-- Python `check_shell_availability`: the whole suite is wrapped in
`try ... except Exception:` which prints and falls through to `return False`,
so no exception ever escapes. -/
def check_shell_availability (env : ProbeEnv) : Except String Bool :=
  match probeBody env with
  | .ok b => .ok b
  | .error _ => .ok false

end ExecApi

/-! ## `managers/docker_manager.py`

The reconciliation pass `DockerManager.refresh_projects` and its helper
`sync_card_list`.  Python tuples are heterogeneous, and the manager loops
unpack the 7-tuples of the service into five targets, so tuples are modelled as
lists of dynamic values and every unpack is fallible, exactly as in Python.
The widget side of a card (CSS classes, mounting, focus) is not modelled;
a `ContainerCard` is its seven data fields. -/

namespace Manager

/-- A dynamic Python value as it occurs in the container tuples. -/
inductive PyVal where
  | i (n : Int)
  | s (v : String)
deriving DecidableEq, Repr

/-- A Python tuple of dynamic values. -/
abbrev PyTuple := List PyVal

def tooMany5 : String := "ValueError: too many values to unpack (expected 5)"

def tooFew : String := "ValueError: not enough values to unpack"

/-- Python `_, cid, name, image, status = t`. -/
def unpack5 : PyTuple → Except String (PyVal × PyVal × PyVal × PyVal × PyVal)
  | [a, b, c, d, e] => .ok (a, b, c, d, e)
  | t => if 5 < t.length then .error tooMany5 else .error tooFew

/-- Python `_, cid, *_ = t` (needs at least two elements). -/
def unpackCid : PyTuple → Except String PyVal
  | _ :: cid :: _ => .ok cid
  | _ => .error tooFew

/-- The data fields of `ContainerCard` in `cards/container_card.py`. -/
structure ContainerCard where
  idx : PyVal
  cid : PyVal
  name : PyVal
  image : PyVal
  status : PyVal
  ports : PyVal
  created : PyVal
deriving DecidableEq, Repr

def cardCtorErr : String :=
  "TypeError: ContainerCard.__init__ missing 2 required positional arguments"

/-- A `ContainerCard(...)` call: the constructor in `cards/container_card.py`
requires exactly seven positional arguments. -/
def mkContainerCard : List PyVal → Except String ContainerCard
  | [a, b, c, d, e, f, g] => .ok ⟨a, b, c, d, e, f, g⟩
  | _ => .error cardCtorErr

/-- Ordered-dict insertion: overwrite in place, else append. -/
def alistInsert {β : Type} (m : List (PyVal × β)) (k : PyVal) (v : β) :
    List (PyVal × β) :=
  match m with
  | [] => [(k, v)]
  | (k2, v2) :: rest =>
    if k2 = k then (k2, v) :: rest else (k2, v2) :: alistInsert rest k v

/-- Python `self._last_containers` / `new_snapshot`: `cid -> (name, image, status)`
in insertion order. -/
abbrev Snapshot := List (PyVal × (PyVal × PyVal × PyVal))

/-- The inner snapshot loop `for _, cid, name, image, status in containers`. -/
def buildSnapshotGo : List PyTuple → Snapshot → Except String Snapshot
  | [], acc => .ok acc
  | t :: rest, acc =>
    match unpack5 t with
    | .error e => .error e
    | .ok (_, cid, name, image, status) =>
      buildSnapshotGo rest (alistInsert acc cid (name, image, status))

/-- The snapshot-building loop over `all_projects.items()`. -/
def buildSnapshot : List (String × List PyTuple) → Snapshot → Except String Snapshot
  | [], acc => .ok acc
  | (_, containers) :: rest, acc =>
    match buildSnapshotGo containers acc with
    | .error e => .error e
    | .ok acc2 => buildSnapshot rest acc2

def keysOf (m : Snapshot) : List PyVal := m.map (fun p => p.1)

/-- Python `set(new_snapshot.keys()) == set(self._last_containers.keys())`. -/
def sameKeySet (a b : Snapshot) : Bool :=
  (keysOf a).all (fun k => (keysOf b).contains k) &&
  (keysOf b).all (fun k => (keysOf a).contains k)

def snapLookup (m : Snapshot) (k : PyVal) : Option (PyVal × PyVal × PyVal) :=
  (m.find? (fun p => p.1 = k)).map (fun p => p.2)

/-- Python `all(new_snapshot[cid][0:2] == self._last_containers[cid][0:2] for cid in
new_snapshot)`: the `(name, image)` prefix agrees for every id. -/
def namesImagesUnchanged (newSnap old : Snapshot) : Bool :=
  newSnap.all (fun p =>
    match snapLookup old p.1 with
    | some q => p.2.1 == q.1 && p.2.2.1 == q.2.1
    | none => false)

/-- The reconciliation-relevant manager state: the two card registries, the
project tree nodes (label, node data), the last snapshot, the selected
project, and the one-pass-in-flight flag. -/
structure ManagerState where
  cards : List (PyVal × ContainerCard)
  uncategorizedCards : List (PyVal × ContainerCard)
  projectTreeNodes : List (String × List PyTuple)
  lastContainers : Snapshot
  currentProject : Option String
  refreshing : Bool
deriving DecidableEq, Repr

def cardsLookup (m : List (PyVal × ContainerCard)) (k : PyVal) : Option ContainerCard :=
  (m.find? (fun p => p.1 = k)).map (fun p => p.2)

/-- Python `card.update_status(status)` applied to the entry with key `k`. -/
def cardsUpdateStatus (m : List (PyVal × ContainerCard)) (k status : PyVal) :
    List (PyVal × ContainerCard) :=
  m.map (fun p => if p.1 = k then (p.1, { p.2 with status := status }) else p)

/-- Python `card = self.get_container_card_by_id(cid)` (first `self.cards`, then
`self.uncategorized_cards`) followed by `if card: card.update_status(status)`. -/
def updateCardStatus (st : ManagerState) (cid status : PyVal) : ManagerState :=
  match cardsLookup st.cards cid with
  | some _ => { st with cards := cardsUpdateStatus st.cards cid status }
  | none =>
    match cardsLookup st.uncategorizedCards cid with
    | some _ =>
      { st with uncategorizedCards := cardsUpdateStatus st.uncategorizedCards cid status }
    | none => st

/-- The fast-path loop `for cid, (name, image, status) in new_snapshot.items()`. -/
def fastUpdate (snap : Snapshot) (st : ManagerState) : ManagerState :=
  snap.foldl (fun acc p => updateCardStatus acc p.1 p.2.2.2) st

/-- Python `new_ids = {cid for _, cid, *_ in container_data}`. -/
def computeNewIds : List PyTuple → Except String (List PyVal)
  | [] => .ok []
  | t :: rest =>
    match unpackCid t with
    | .error e => .error e
    | .ok cid =>
      match computeNewIds rest with
      | .error e => .error e
      | .ok ids => .ok (cid :: ids)

/-- Python `status_map = {cid: status for _, cid, _, _, status in container_data}`. -/
def computeStatusMap : List PyTuple → Except String (List (PyVal × PyVal))
  | [] => .ok []
  | t :: rest =>
    match unpack5 t with
    | .error e => .error e
    | .ok (_, cid, _, _, status) =>
      match computeStatusMap rest with
      | .error e => .error e
      | .ok m => .ok (alistInsert m cid status)

/-- The add loop of `sync_card_list`: unknown ids get a freshly constructed
card (`ContainerCard(idx, cid, name, image, status)` — five arguments). -/
def addCardsLoop (container_data : List PyTuple)
    (dict : List (PyVal × ContainerCard)) : List (PyVal × ContainerCard) × Option String :=
  match container_data with
  | [] => (dict, none)
  | t :: rest =>
    match unpack5 t with
    | .error e => (dict, some e)
    | .ok (idx, cid, name, image, status) =>
      if (dict.find? (fun p => p.1 = cid)).isSome then addCardsLoop rest dict
      else
        match mkContainerCard [idx, cid, name, image, status] with
        | .error e => (dict, some e)
        | .ok card => addCardsLoop rest (dict ++ [(cid, card)])

/-- Python `sync_card_list` on one card registry: remove vanished ids, refresh the
statuses of survivors, add new cards.  The second component is the exception
escaping the method, if any; mutations made before it stick, as in Python. -/
def sync_card_list (container_data : List PyTuple)
    (dict : List (PyVal × ContainerCard)) : List (PyVal × ContainerCard) × Option String :=
  match computeNewIds container_data with
  | .error e => (dict, some e)
  | .ok newIds =>
    let dict1 := dict.filter (fun p => newIds.contains p.1)
    match computeStatusMap container_data with
    | .error e => (dict1, some e)
    | .ok statusMap =>
      let dict2 := dict1.map (fun p =>
        match statusMap.find? (fun q => q.1 = p.1) with
        | some q => (p.1, { p.2 with status := q.2 })
        | none => p)
      addCardsLoop container_data dict2

/-- Python `sync_card_list` against `self.uncategorized_cards` (`uncat = true`) or,
via `refresh_container_list`, against `self.cards`. -/
def applySync (st : ManagerState) (container_data : List PyTuple) (uncat : Bool) :
    ManagerState × Option String :=
  if uncat then
    (let r := sync_card_list container_data st.uncategorizedCards
     ({ st with uncategorizedCards := r.1 }, r.2))
  else
    (let r := sync_card_list container_data st.cards
     ({ st with cards := r.1 }, r.2))

def treeLabelMark : String := "🔹 "

/-- Python `str.strip()`. -/
def pyStrip (x : String) : String :=
  String.mk (((x.toList.dropWhile isPySpace).reverse.dropWhile isPySpace).reverse)

/-- The node search `label[1:].strip() == self.current_project`. -/
def findProjectNode (nodes : List (String × List PyTuple)) (cp : String) :
    Option (String × List PyTuple) :=
  nodes.find? (fun n => pyStrip (n.1.drop 1) = cp)

/-- Python truthiness of the optional `current_project` string. -/
def isTruthy : Option String → Bool
  | some x => x ≠ ""
  | none => false

/-- The `try` suite of `refresh_projects`, after `all_projects` is fetched:
build the flat snapshot, take the status-only fast path when ids and
`(name, image)` pairs are unchanged, otherwise run the full sync (rebuild the
tree, refresh the container list of the selected project). -/
def refreshBody (all_projects : List (String × List PyTuple)) (st : ManagerState) :
    ManagerState × Option String :=
  match buildSnapshot all_projects [] with
  | .error e => (st, some e)
  | .ok newSnapshot =>
    if sameKeySet newSnapshot st.lastContainers &&
       namesImagesUnchanged newSnapshot st.lastContainers then
      (let st2 := fastUpdate newSnapshot st
       ({ st2 with lastContainers := newSnapshot }, none))
    else
      (let st2 := { st with lastContainers := newSnapshot }
       let step1 :=
         match all_projects.find? (fun p => p.1 = Service.uncategorizedKey) with
         | some pr => applySync st2 pr.2 true
         | none => (st2, none)
       match step1.2 with
       | some _ => step1
       | none =>
         let nodes := (all_projects.filter (fun p => p.1 ≠ Service.uncategorizedKey)).map
           (fun p => (treeLabelMark ++ p.1, p.2))
         let st3 := { step1.1 with projectTreeNodes := nodes }
         if isTruthy st3.currentProject then
           (match findProjectNode st3.projectTreeNodes (st3.currentProject.getD ("")) with
            | some node => applySync st3 node.2 false
            | none => (st3, none))
         else
           (match st3.projectTreeNodes with
            | first :: _ => applySync st3 first.2 false
            | [] => (st3, none)))

/-- Python `DockerManager.refresh_projects`, as a function of the `all_projects`
mapping returned by the service: the in-flight guard, the guarded body, and
the `finally` that clears the flag on every exit. -/
def refresh_projects (all_projects : List (String × List PyTuple)) (st : ManagerState) :
    ManagerState × Option String :=
  if st.refreshing then (st, none)
  else
    (let r := refreshBody all_projects { st with refreshing := true }
     ({ r.1 with refreshing := false }, r.2))

/-- The identity-carrying fields of a card — everything except `status`. -/
def cardSkeleton (c : ContainerCard) : PyVal × PyVal × PyVal × PyVal × PyVal × PyVal :=
  (c.idx, c.cid, c.name, c.image, c.ports, c.created)

def registrySkeleton (m : List (PyVal × ContainerCard)) :
    List (PyVal × (PyVal × PyVal × PyVal × PyVal × PyVal × PyVal)) :=
  m.map (fun p => (p.1, cardSkeleton p.2))

end Manager

/-! ## Theorems

### The container mutation helpers (`service.py`) -/

/-- Pushing a stop at a daemon whose head entry has a different id behaves as
on the tail, with the head entry untouched. -/
theorem stopEndpoint_cons_ne (k : String) (r : Bool) (d : Service.Daemon) (cid : String)
    (h : k ≠ cid) :
    Service.stopEndpoint ((k, r) :: d) cid =
      ((Service.stopEndpoint d cid).1, (k, r) :: (Service.stopEndpoint d cid).2) := by
  unfold Service.stopEndpoint
  simp only [List.find?_cons, h, decide_eq_true_eq, if_neg, decide_eq_false_iff_not,
    not_false_eq_true]
  cases hf : List.find? (fun p => decide (p.1 = cid)) d with
  | none => simp
  | some pr =>
    cases hr : pr.2 <;> simp [hr, h]

/-- A stop request against a known container succeeds, and so does an
immediate second stop (which observes "already stopped"). -/
theorem stop_twice (d : Service.Daemon) (cid : String)
    (h : (d.find? (fun p => p.1 = cid)).isSome = true) :
    Service.stop_container (Service.stopEndpoint d cid).1 = true ∧
    Service.stop_container (Service.stopEndpoint (Service.stopEndpoint d cid).2 cid).1 = true := by
  induction d with
  | nil => simp [List.find?] at h
  | cons p rest ih =>
    obtain ⟨k, r⟩ := p
    by_cases hk : k = cid
    · subst hk
      cases r
      · simp [Service.stopEndpoint, List.find?_cons, Service.stop_container]
      · simp [Service.stopEndpoint, List.find?_cons, List.map_cons, Service.stop_container]
    · rw [stopEndpoint_cons_ne k r rest cid hk]
      rw [stopEndpoint_cons_ne k r (Service.stopEndpoint rest cid).2 cid hk]
      apply ih
      simpa [List.find?_cons, hk] using h

/-- C2, counterexample: a `NotFound` (404) response is not success for the
stop intent — `stop_container` maps it to `False` — although it is success
for the delete intent, and a stop of an unknown id does produce 404. -/
theorem C2_counterexample :
    Service.stop_container 404 = false ∧ Service.delete_container 404 = true ∧
    (Service.stopEndpoint [] ("missing")).1 = 404 := by decide

/-- C2, amended: `stop_container` returns true exactly on 204 and 304 (so a
normal stop and "already stopped" both succeed, and stopping twice in a row
returns true both times), while `delete_container` returns true exactly on
204 and 404 — `NotFound` is benign success for the delete intent only. -/
theorem C2_amended_idempotent :
    (∀ s : Nat, Service.stop_container s = true ↔ (s = 204 ∨ s = 304)) ∧
    (∀ s : Nat, Service.delete_container s = true ↔ (s = 204 ∨ s = 404)) ∧
    (∀ (d : Service.Daemon) (cid : String),
      (d.find? (fun p => p.1 = cid)).isSome = true →
      Service.stop_container (Service.stopEndpoint d cid).1 = true ∧
      Service.stop_container (Service.stopEndpoint (Service.stopEndpoint d cid).2 cid).1 = true) := by
  refine ⟨fun s => ?_, fun s => ?_, fun d cid h => stop_twice d cid h⟩
  · simp [Service.stop_container]
  · simp [Service.delete_container]

/-- Witness for C2: both stops of a running container `web1` report success. -/
theorem C2_witness :
    Service.stop_container (Service.stopEndpoint [(("web1"), true)] ("web1")).1 = true ∧
    Service.stop_container
      (Service.stopEndpoint (Service.stopEndpoint [(("web1"), true)] ("web1")).2 ("web1")).1 =
      true :=
  C2_amended_idempotent.2.2 [(("web1"), true)] ("web1") (by decide)

/-- C3: a transport-level failure or a non-200 status makes
`get_projects_with_containers` return (not raise) a mapping with the single
`"Error"` placeholder group holding a descriptive status entry. -/
theorem C3_error_placeholder (fmtTime : Int → String) (e : String) (status : Nat)
    (body : List Service.ContainerJson) :
    Service.get_projects_with_containers fmtTime (.exn e) =
      .ok [(Service.errorKey, [Service.errTuple (("Request failed: ") ++ e)])] ∧
    (status ≠ 200 →
      Service.get_projects_with_containers fmtTime (.resp status body) =
        .ok [(Service.errorKey, [Service.errTuple (("HTTP ") ++ toString status)])]) := by
  refine ⟨rfl, fun h => ?_⟩
  simp [Service.get_projects_with_containers, h]

/-- Witness for C3: an HTTP 500 poll yields the `"Error"` group. -/
theorem C3_witness :
    Service.get_projects_with_containers (fun _ => "") (.resp 500 []) =
      .ok [(Service.errorKey, [Service.errTuple (("HTTP ") ++ toString 500)])] :=
  (C3_error_placeholder (fun _ => "") ("") 500 []).2 (by decide)

/-! ### The log stream header (`container_logs.py`) -/

/-- C6, counterexample: an eight-byte chunk (a frame header whose payload
starts with the line separator) is yielded whole — the header is not
stripped, so its bytes reach the decoded output. -/
theorem C6_counterexample :
    Logs.stripLogHeader [1, 0, 0, 0, 0, 0, 0, 42] ≠ List.drop 8 [1, 0, 0, 0, 0, 0, 0, 42] ∧
    Logs.stripLogHeader [1, 0, 0, 0, 0, 0, 0, 42] = [1, 0, 0, 0, 0, 0, 0, 42] := by decide

/-- C6, amended: the 8-byte header is stripped only from chunks strictly
longer than 8 bytes; a chunk of at most 8 bytes is passed through unchanged,
header bytes included. -/
theorem C6_amended_strip (chunk : List Nat) :
    (8 < chunk.length → Logs.stripLogHeader chunk = chunk.drop 8) ∧
    (chunk.length ≤ 8 → Logs.stripLogHeader chunk = chunk) := by
  refine ⟨fun h => ?_, fun h => ?_⟩
  · simp [Logs.stripLogHeader, h]
  · simp [Logs.stripLogHeader, show ¬ (8 < chunk.length) from by omega]

/-- Witness for C6: a nine-byte chunk loses its header, an eight-byte chunk
keeps it. -/
theorem C6_witness :
    Logs.stripLogHeader [1, 0, 0, 0, 0, 0, 0, 0, 65] = [65] ∧
    Logs.stripLogHeader [2, 0, 0, 0, 0, 0, 0, 42] = [2, 0, 0, 0, 0, 0, 0, 42] := by
  constructor
  · exact ((C6_amended_strip [1, 0, 0, 0, 0, 0, 0, 0, 65]).1 (by decide)).trans (by decide)
  · exact (C6_amended_strip [2, 0, 0, 0, 0, 0, 0, 42]).2 (by decide)

/-! ### The shell availability probe (`container_exec.py`) -/

/-- C9, counterexample: on a transport failure of the very first runtime call
the probe does not throw — the blanket `except` swallows it and the function
returns `False`. -/
theorem C9_counterexample :
    ExecApi.check_shell_availability ⟨.exn ("ConnectionError: socket"), .exn (""), .exn ("")⟩ =
      Except.ok false := rfl

/-- C9, amended: `check_shell_availability` never throws at all — every
negative probe (container missing or erroring, container not running, exec
rejected) and every transport failure is reported as `False`. -/
theorem C9_amended_never_throws (env : ExecApi.ProbeEnv) :
    (ExecApi.check_shell_availability env).isOk = true ∧
    (∀ e, env.inspect = .exn e → ExecApi.check_shell_availability env = .ok false) ∧
    (∀ status r, status ≠ 200 → env.inspect = .resp status r →
      ExecApi.check_shell_availability env = .ok false) ∧
    (∀ status, env.inspect = .resp status false →
      ExecApi.check_shell_availability env = .ok false) ∧
    (∀ st2 i, env.inspect = .resp 200 true → env.execCreate = .resp st2 i → st2 ≠ 201 →
      ExecApi.check_shell_availability env = .ok false) := by
  refine ⟨?_, fun e h => ?_, fun status r hs h => ?_, fun status h => ?_,
    fun st2 i h1 h2 hne => ?_⟩
  · cases h : ExecApi.probeBody env <;>
      simp [ExecApi.check_shell_availability, h, Except.isOk, Except.toBool]
  · simp [ExecApi.check_shell_availability, ExecApi.probeBody, h]
  · simp [ExecApi.check_shell_availability, ExecApi.probeBody, h, hs]
  · by_cases hs : status = 200
    · subst hs
      simp [ExecApi.check_shell_availability, ExecApi.probeBody, h]
    · simp [ExecApi.check_shell_availability, ExecApi.probeBody, h, hs]
  · simp [ExecApi.check_shell_availability, ExecApi.probeBody, h1, h2, hne]

/-- Witness for C9: a 404 inspect response gives `False` without throwing. -/
theorem C9_witness :
    ExecApi.check_shell_availability ⟨.resp 404 false, .exn (""), .exn ("")⟩ =
      Except.ok false :=
  (C9_amended_never_throws ⟨.resp 404 false, .exn (""), .exn ("")⟩).2.2.1 404 false
    (by decide) rfl

/-! ### The exec-creation fallback (`container_exec.py`) -/

/-- The candidate loop returns the exec id of the first accepted config. -/
theorem tryConfigs_eq_find (runtime : ExecApi.ExecConfig → ExecApi.PostResult) :
    ∀ l : List ExecApi.ExecConfig,
      ExecApi.tryConfigs runtime l =
        (l.find? (fun c => ExecApi.accepted (runtime c))).map
          (fun c => ExecApi.execIdOf (runtime c))
  | [] => rfl
  | c :: rest => by
    cases h : runtime c with
    | exn m =>
      simp only [ExecApi.tryConfigs, h, List.find?_cons, ExecApi.accepted]
      exact tryConfigs_eq_find runtime rest
    | resp s i =>
      by_cases hs : (s == 200 || s == 201) = true
      · simp [ExecApi.tryConfigs, h, List.find?_cons, ExecApi.accepted, hs, ExecApi.execIdOf]
      · simp only [ExecApi.tryConfigs, h, List.find?_cons, ExecApi.accepted, hs,
          Bool.false_eq_true, if_false, cond_false]
        exact tryConfigs_eq_find runtime rest

/-- C8: `create_exec_instance` returns the exec id of the first candidate
configuration (the four `shell_configs` in order, then the basic `["sh"]`
fallback) the runtime accepts with a 200/201 response, and raises only when
every candidate has been rejected. -/
theorem C8_first_accepted (runtime : ExecApi.ExecConfig → ExecApi.PostResult) :
    ExecApi.create_exec_instance runtime =
      (match (ExecApi.shell_configs ++ [ExecApi.basic_config]).find?
          (fun c => ExecApi.accepted (runtime c)) with
       | some c => .ok (ExecApi.execIdOf (runtime c))
       | none => .error ExecApi.noShellMsg) := by
  unfold ExecApi.create_exec_instance
  rw [tryConfigs_eq_find, List.find?_append]
  cases hf : ExecApi.shell_configs.find? (fun c => ExecApi.accepted (runtime c)) with
  | some c => simp
  | none =>
    simp only [Option.map_none', Option.none_or]
    cases h : runtime ExecApi.basic_config with
    | exn m => simp [List.find?, ExecApi.accepted, h]
    | resp s i =>
      by_cases hs : (s == 200 || s == 201) = true
      · simp [List.find?, ExecApi.accepted, h, hs, ExecApi.execIdOf]
      · simp [List.find?, ExecApi.accepted, h, hs]

/-! ### The poll result shape (`service.py`) -/

/-- Python `setdefault`-append never leaves the map empty. -/
theorem appendToKey_ne_nil (m : Service.ProjectMap) (k : String) (v : Service.Tuple7) :
    Service.appendToKey m k v ≠ [] := by
  cases m with
  | nil => simp [Service.appendToKey]
  | cons p rest =>
    obtain ⟨k2, vs⟩ := p
    by_cases h : k2 = k <;> simp [Service.appendToKey, h]

/-- Python `setdefault`-append adds at most the key `k2` to the key set. -/
theorem appendToKey_keys :
    ∀ (m : Service.ProjectMap) (k2 : String) (v : Service.Tuple7) (k : String),
      k ∈ (Service.appendToKey m k2 v).map Prod.fst → k ∈ m.map Prod.fst ∨ k = k2
  | [], k2, v, k, hk => by
    right
    simpa [Service.appendToKey] using hk
  | (kk, vs) :: rest, k2, v, k, hk => by
    by_cases h : kk = k2
    · simp only [Service.appendToKey, if_pos h, List.map_cons, List.mem_cons] at hk
      exact Or.inl (by simpa using hk)
    · simp only [Service.appendToKey, if_neg h, List.map_cons, List.mem_cons] at hk
      rcases hk with h1 | h2
      · exact Or.inl (by simp [h1])
      · rcases appendToKey_keys rest k2 v k h2 with h3 | h3
        · exact Or.inl (List.mem_cons_of_mem _ h3)
        · exact Or.inr h3

/-- The grouping loop keeps a non-empty accumulator non-empty. -/
theorem buildProjectsGo_ne_nil (fmtTime : Int → String) :
    ∀ (body : List Service.ContainerJson) (idx : Nat) (acc m : Service.ProjectMap),
      acc ≠ [] → Service.buildProjectsGo fmtTime idx body acc = .ok m → m ≠ []
  | [], _, acc, m, hacc, h => by
    simp only [Service.buildProjectsGo, Except.ok.injEq] at h
    exact h ▸ hacc
  | c :: rest, idx, acc, m, hacc, h => by
    cases hs : Service.shorten_image c.image with
    | error e => simp [Service.buildProjectsGo, hs] at h
    | ok image =>
      have h2 : Service.buildProjectsGo fmtTime (idx + 1) rest
          (Service.appendToKey acc (Service.projectOf c)
            ⟨(idx : Int) + 1, c.id.take 12, Service.safe_get_name c, image, c.status,
              Service.format_ports c.ports, Service.format_created fmtTime c.created⟩) =
          .ok m := by
        simpa [Service.buildProjectsGo, hs] using h
      exact buildProjectsGo_ne_nil fmtTime rest (idx + 1) _ m (appendToKey_ne_nil _ _ _) h2

/-- Every key of the built map comes from the accumulator or is the compose
project of some listed container. -/
theorem buildProjectsGo_keys (fmtTime : Int → String) :
    ∀ (body : List Service.ContainerJson) (idx : Nat) (acc m : Service.ProjectMap),
      Service.buildProjectsGo fmtTime idx body acc = .ok m →
      ∀ k ∈ m.map Prod.fst,
        k ∈ acc.map Prod.fst ∨ ∃ c ∈ body, Service.projectOf c = k
  | [], _, acc, m, h, k, hk => by
    simp only [Service.buildProjectsGo, Except.ok.injEq] at h
    exact Or.inl (h ▸ hk)
  | c :: rest, idx, acc, m, h, k, hk => by
    cases hs : Service.shorten_image c.image with
    | error e => simp [Service.buildProjectsGo, hs] at h
    | ok image =>
      have h2 : Service.buildProjectsGo fmtTime (idx + 1) rest
          (Service.appendToKey acc (Service.projectOf c)
            ⟨(idx : Int) + 1, c.id.take 12, Service.safe_get_name c, image, c.status,
              Service.format_ports c.ports, Service.format_created fmtTime c.created⟩) =
          .ok m := by
        simpa [Service.buildProjectsGo, hs] using h
      rcases buildProjectsGo_keys fmtTime rest (idx + 1) _ m h2 k hk with h3 | ⟨c2, hc2, hp⟩
      · rcases appendToKey_keys acc (Service.projectOf c) _ k h3 with h4 | h4
        · exact Or.inl h4
        · exact Or.inr ⟨c, by simp, h4.symm⟩
      · exact Or.inr ⟨c2, by simp [hc2], hp⟩

/-- The group of a container is either the reserved `"Uncategorized"` bucket or
the value of its compose-project label. -/
theorem projectOf_cases (c : Service.ContainerJson) :
    Service.projectOf c = Service.uncategorizedKey ∨
    Service.lookupLabel c.labels Service.composeProjectLabel = some (Service.projectOf c) := by
  unfold Service.projectOf
  cases h : Service.lookupLabel c.labels Service.composeProjectLabel <;>
    simp [h, Service.uncategorizedKey]

/-- C10: an empty-but-successful container list yields the single
`"No Projects"` placeholder group; every successfully returned mapping is
non-empty, and its keys are drawn only from `"Error"`, `"No Projects"`,
`"Uncategorized"`, and the compose-project labels of the listed containers. -/
theorem C10_placeholder_and_keys :
    (∀ fmtTime : Int → String,
      Service.get_projects_with_containers fmtTime (.resp 200 []) =
        .ok [(Service.noProjectsKey, [Service.noContainersTuple])]) ∧
    (∀ (fmtTime : Int → String) (r : Service.ListResponse) (m : Service.ProjectMap),
      Service.get_projects_with_containers fmtTime r = .ok m →
      m ≠ [] ∧
      ∀ k ∈ m.map Prod.fst,
        k = Service.errorKey ∨ k = Service.noProjectsKey ∨ k = Service.uncategorizedKey ∨
        ∃ c ∈ Service.bodyOf r,
          Service.lookupLabel c.labels Service.composeProjectLabel = some k) := by
  constructor
  · intro fmtTime
    rfl
  · intro fmtTime r m h
    cases r with
    | exn e =>
      simp only [Service.get_projects_with_containers, Except.ok.injEq] at h
      subst h
      refine ⟨by simp, ?_⟩
      intro k hk
      simp at hk
      exact Or.inl hk
    | resp status body =>
      by_cases hst : status = 200
      · subst hst
        cases body with
        | nil =>
          simp only [Service.get_projects_with_containers, ne_eq, not_true_eq_false,
            if_false, List.isEmpty_nil, if_true, Except.ok.injEq, reduceIte] at h
          subst h
          refine ⟨by simp, ?_⟩
          intro k hk
          simp at hk
          exact Or.inr (Or.inl hk)
        | cons c rest =>
          have h2 : Service.buildProjectsGo fmtTime 0 (c :: rest) [] = .ok m := by
            simpa [Service.get_projects_with_containers] using h
          constructor
          · cases hs : Service.shorten_image c.image with
            | error e => simp [Service.buildProjectsGo, hs] at h2
            | ok image =>
              have h3 : Service.buildProjectsGo fmtTime 1 rest
                  (Service.appendToKey [] (Service.projectOf c)
                    ⟨(0 : Int) + 1, c.id.take 12, Service.safe_get_name c, image, c.status,
                      Service.format_ports c.ports,
                      Service.format_created fmtTime c.created⟩) =
                  .ok m := by
                simpa [Service.buildProjectsGo, hs] using h2
              exact buildProjectsGo_ne_nil fmtTime rest 1 _ m (appendToKey_ne_nil _ _ _) h3
          · intro k hk
            rcases buildProjectsGo_keys fmtTime (c :: rest) 0 [] m h2 k hk with h3 | ⟨c2, hc2, hp⟩
            · simp at h3
            · rcases projectOf_cases c2 with h4 | h4
              · exact Or.inr (Or.inr (Or.inl (hp ▸ h4 ▸ rfl)))
              · exact Or.inr (Or.inr (Or.inr ⟨c2, hc2, hp ▸ h4⟩))
      · have h2 : m = [(Service.errorKey,
            [Service.errTuple (("HTTP ") ++ toString status)])] := by
          have := h
          simp only [Service.get_projects_with_containers, hst, ne_eq, not_false_eq_true,
            if_true, Except.ok.injEq, reduceIte] at this
          exact this.symm
        subst h2
        refine ⟨by simp, ?_⟩
        intro k hk
        simp at hk
        exact Or.inl hk

/-! ### Colorization (`container_action_menu.py`) -/

/-- Prefix matching of a markup-free pattern, under upper-casing, is
unaffected by bracket escaping. -/
theorem isPrefixOf_escape :
    ∀ (s pat : List Char), Menu.patNoMarkup pat →
      pat.isPrefixOf (Menu.upperList (Menu.escapeBrackets s)) =
        pat.isPrefixOf (Menu.upperList s)
  | [], pat, hpat => rfl
  | c :: t, pat, hpat => by
    by_cases hc : c = '[' ∨ c = ']'
    · have hcu : Char.toUpper c = c := by rcases hc with rfl | rfl <;> decide
      have hesc : Menu.escapeBrackets (c :: t) = '\\' :: c :: Menu.escapeBrackets t := by
        rcases hc with rfl | rfl <;> simp [Menu.escapeBrackets]
      cases pat with
      | nil => simp [List.isPrefixOf]
      | cons p pt =>
        have hp := hpat p (by simp)
        have hp1 : (p == '\\') = false := by simp [hp.1]
        have hp2 : (p == c) = false := by
          rcases hc with rfl | rfl
          · simp [hp.2.1]
          · simp [hp.2.2]
        rw [hesc]
        have h1 : Char.toUpper '\\' = '\\' := by decide
        simp [Menu.upperList, List.isPrefixOf, hcu, h1, hp1, hp2]
    · obtain ⟨hc1, hc2⟩ := not_or.mp hc
      have hesc : Menu.escapeBrackets (c :: t) = c :: Menu.escapeBrackets t := by
        simp [Menu.escapeBrackets, hc1, hc2]
      rw [hesc]
      cases pat with
      | nil => simp [List.isPrefixOf]
      | cons p pt =>
        simp only [Menu.upperList, List.map_cons, List.isPrefixOf]
        rw [show pt.isPrefixOf (List.map Char.toUpper (Menu.escapeBrackets t)) =
              pt.isPrefixOf (List.map Char.toUpper t) from
            isPrefixOf_escape t pt (fun x hx => hpat x (by simp [hx]))]

/-- Substring containment of a markup-free pattern, under upper-casing, is
unaffected by bracket escaping. -/
theorem hasSub_escape :
    ∀ (s pat : List Char), Menu.patNoMarkup pat →
      hasSub pat (Menu.upperList (Menu.escapeBrackets s)) =
        hasSub pat (Menu.upperList s)
  | [], pat, hpat => rfl
  | c :: t, pat, hpat => by
    by_cases hc : c = '[' ∨ c = ']'
    · have hcu : Char.toUpper c = c := by rcases hc with rfl | rfl <;> decide
      have hesc : Menu.escapeBrackets (c :: t) = '\\' :: c :: Menu.escapeBrackets t := by
        rcases hc with rfl | rfl <;> simp [Menu.escapeBrackets]
      rw [hesc]
      cases pat with
      | nil => simp [hasSub, Menu.upperList, List.isPrefixOf]
      | cons p pt =>
        have hp := hpat p (by simp)
        have hp1 : (p == '\\') = false := by simp [hp.1]
        have hp2 : (p == c) = false := by
          rcases hc with rfl | rfl
          · simp [hp.2.1]
          · simp [hp.2.2]
        have h1 : Char.toUpper '\\' = '\\' := by decide
        simp only [Menu.upperList, List.map_cons, hasSub, List.isPrefixOf, hcu, h1, hp1, hp2,
          Bool.false_and, Bool.false_or]
        exact hasSub_escape t (p :: pt) hpat
    · obtain ⟨hc1, hc2⟩ := not_or.mp hc
      have hesc : Menu.escapeBrackets (c :: t) = c :: Menu.escapeBrackets t := by
        simp [Menu.escapeBrackets, hc1, hc2]
      have hpre := isPrefixOf_escape (c :: t) pat hpat
      rw [hesc] at hpre
      rw [hesc]
      simp only [Menu.upperList, List.map_cons, hasSub] at hpre ⊢
      have hrec := hasSub_escape t pat hpat
      simp only [Menu.upperList] at hrec
      rw [hpre, hrec]

/-- C7: `colorize_log` assigns at most one severity tag, deciding by
case-insensitive containment in the original line, in the fixed priority
order ERROR/FATAL (red), WARN (yellow), INFO (green), DEBUG (blue), stopping
at the first match; a line matching none is returned untagged (only
bracket-escaped). -/
theorem C7_colorize_priority (line : List Char) :
    Menu.colorize_log line =
      (if (Menu.containsCI line Menu.errorPat || Menu.containsCI line Menu.fatalPat) = true
       then Menu.tagWith ("red") (Menu.escapeBrackets line)
       else if Menu.containsCI line Menu.warnPat = true then
         Menu.tagWith ("yellow") (Menu.escapeBrackets line)
       else if Menu.containsCI line Menu.infoPat = true then
         Menu.tagWith ("green") (Menu.escapeBrackets line)
       else if Menu.containsCI line Menu.debugPat = true then
         Menu.tagWith ("blue") (Menu.escapeBrackets line)
       else Menu.escapeBrackets line) := by
  have he : Menu.patNoMarkup Menu.errorPat := by unfold Menu.patNoMarkup; decide
  have hf : Menu.patNoMarkup Menu.fatalPat := by unfold Menu.patNoMarkup; decide
  have hw : Menu.patNoMarkup Menu.warnPat := by unfold Menu.patNoMarkup; decide
  have hi : Menu.patNoMarkup Menu.infoPat := by unfold Menu.patNoMarkup; decide
  have hd : Menu.patNoMarkup Menu.debugPat := by unfold Menu.patNoMarkup; decide
  simp only [Menu.colorize_log, Menu.containsCI, hasSub_escape line Menu.errorPat he,
    hasSub_escape line Menu.fatalPat hf, hasSub_escape line Menu.warnPat hw,
    hasSub_escape line Menu.infoPat hi, hasSub_escape line Menu.debugPat hd]

/-! ### The shell output splitter (`container_action_menu.py`) -/

/-- A list that visibly contains the pattern satisfies the substring test. -/
theorem hasSub_of_append (pat : List Char) :
    ∀ (a b : List Char), hasSub pat (a ++ pat ++ b) = true
  | [], b => by
    have hpre : pat.isPrefixOf (pat ++ b) = true := by
      rw [ List.isPrefixOf_iff_prefix]
      exact List.prefix_append pat b
    cases h : pat ++ b with
    | nil =>
      obtain ⟨hp, hb⟩ := List.append_eq_nil.mp h
      subst hp; subst hb
      rfl
    | cons c t =>
      rw [List.nil_append, h, hasSub]
      rw [h] at hpre
      simp [hpre]
  | x :: a, b => by
    show (pat.isPrefixOf (x :: (a ++ pat ++ b)) || hasSub pat (a ++ pat ++ b)) = true
    rw [hasSub_of_append pat a b]
    simp

/-- The substring test is monotone under prepending. -/
theorem hasSub_append_left (pat : List Char) :
    ∀ (a r : List Char), hasSub pat r = true → hasSub pat (a ++ r) = true
  | [], r, h => by simpa using h
  | x :: a, r, h => by
    show (pat.isPrefixOf (x :: (a ++ r)) || hasSub pat (a ++ r)) = true
    rw [hasSub_append_left pat a r h]
    simp

/-- Python `buffer.split(pat, 1)` decomposes the buffer around the first occurrence
of the pattern. -/
theorem splitFirst_spec (pat : List Char) (hne : pat ≠ []) :
    ∀ s : List Char, hasSub pat s = true →
      s = (splitFirst pat s).1 ++ pat ++ (splitFirst pat s).2
  | [], h => by
    rw [hasSub] at h
    exact absurd (List.isEmpty_iff.mp h) hne
  | c :: t, h => by
    cases hp : pat.isPrefixOf (c :: t) with
    | true =>
      obtain ⟨r, hr⟩ := List.isPrefixOf_iff_prefix.mp hp
      simp only [splitFirst, hp, if_true]
      rw [List.nil_append, ← hr, List.drop_left]
    | false =>
      have h2 : hasSub pat t = true := by
        rw [hasSub, hp] at h
        simpa using h
      simp only [splitFirst, hp, Bool.false_eq_true, if_false]
      have hrec := splitFirst_spec pat hne t h2
      simp only [List.cons_append]
      rw [← hrec]

/-- Characterization of one iteration of the splitting loop: the buffer
decomposes as `line ++ sep ++ rest`; the separator is one of the three
candidates; a `"\n"` split never has a carriage return just before it (the
`"\r\n"` check comes first), and a `"\r"` split never has a newline just
after it (a buffer holding any `"\n"` is split on `"\n"` first). -/
theorem splitNext_spec (buffer line sep rest : List Char)
    (h : Menu.splitNext buffer = some (line, sep, rest)) :
    buffer = line ++ sep ++ rest ∧
    (sep = ['\r', '\n'] ∨ sep = ['\n'] ∨ sep = ['\r']) ∧
    (sep = ['\n'] → ∀ l2 : List Char, line ≠ l2 ++ ['\r']) ∧
    (sep = ['\r'] → ∀ r2 : List Char, rest ≠ '\n' :: r2) := by
  cases hOr : (hasSub ['\n'] buffer || hasSub ['\r'] buffer) with
  | false => simp [Menu.splitNext, hOr] at h
  | true =>
    cases hcrlf : hasSub ['\r', '\n'] buffer with
    | true =>
      simp only [Menu.splitNext, hOr, hcrlf] at h
      simp only [if_true, Option.some.injEq, Prod.mk.injEq] at h
      obtain ⟨hl, hsep, hr⟩ := h
      subst hl; subst hr; subst hsep
      have hbuf := splitFirst_spec ['\r', '\n'] (by decide) buffer hcrlf
      exact ⟨hbuf, Or.inl rfl, fun hn => absurd hn (by decide),
        fun hn => absurd hn (by decide)⟩
    | false =>
      cases hnl : hasSub ['\n'] buffer with
      | true =>
        simp only [Menu.splitNext, hcrlf, hnl] at h
        simp only [Bool.true_or, Bool.false_eq_true, if_false, if_true, Option.some.injEq,
          Prod.mk.injEq] at h
        obtain ⟨hl, hsep, hr⟩ := h
        subst hl; subst hr; subst hsep
        have hbuf := splitFirst_spec ['\n'] (by decide) buffer hnl
        refine ⟨hbuf, Or.inr (Or.inl rfl), ?_, ?_⟩
        · intro _ l2 heq
          have hcon : hasSub ['\r', '\n'] buffer = true := by
            rw [hbuf, heq]
            have hre : (l2 ++ ['\r']) ++ ['\n'] ++ (splitFirst ['\n'] buffer).2 =
                l2 ++ ['\r', '\n'] ++ (splitFirst ['\n'] buffer).2 := by
              simp
            rw [hre]
            exact hasSub_of_append ['\r', '\n'] l2 _
          rw [hcon] at hcrlf
          exact absurd hcrlf (by decide)
        · intro hcon
          exact absurd hcon (by decide)
      | false =>
        cases hcr : hasSub ['\r'] buffer with
        | false => simp [Menu.splitNext, hOr, hcrlf, hnl, hcr] at h
        | true =>
          simp only [Menu.splitNext, hcrlf, hnl, hcr] at h
          simp only [Bool.false_or, Bool.or_true, Bool.false_eq_true, if_false, if_true,
            Option.some.injEq, Prod.mk.injEq] at h
          obtain ⟨hl, hsep, hr⟩ := h
          subst hl; subst hr; subst hsep
          have hbuf := splitFirst_spec ['\r'] (by decide) buffer hcr
          refine ⟨hbuf, Or.inr (Or.inr rfl), ?_, ?_⟩
          · intro hcon
            exact absurd hcon (by decide)
          · intro _ r2 heq
            have hcon : hasSub ['\n'] buffer = true := by
              rw [hbuf, heq]
              have hre : (splitFirst ['\r'] buffer).1 ++ ['\r'] ++ ('\n' :: r2) =
                  ((splitFirst ['\r'] buffer).1 ++ ['\r']) ++ ['\n'] ++ r2 := by
                simp
              rw [hre]
              exact hasSub_of_append ['\n'] _ r2
            rw [hcon] at hnl
            exact absurd hnl (by decide)

/-- One split step strictly shortens the buffer. -/
theorem splitNext_rest_lt (buffer line sep rest : List Char)
    (h : Menu.splitNext buffer = some (line, sep, rest)) :
    rest.length < buffer.length := by
  obtain ⟨hbuf, hsep, -, -⟩ := splitNext_spec buffer line sep rest h
  have hs : 0 < sep.length := by rcases hsep with rfl | rfl | rfl <;> simp
  rw [hbuf]
  simp only [List.length_append]
  omega

/-- The splitting loop only reorders nothing: lines and separators
concatenate, in emission order, back to the buffer it consumed. -/
theorem processBufferFuel_join :
    ∀ (fuel : Nat) (buffer : List Char),
      Menu.joinPieces (Menu.processBufferFuel fuel buffer).1 ++
        (Menu.processBufferFuel fuel buffer).2 = buffer
  | 0, buffer => by simp [Menu.processBufferFuel, Menu.joinPieces]
  | fuel + 1, buffer => by
    cases h : Menu.splitNext buffer with
    | none => simp [Menu.processBufferFuel, h, Menu.joinPieces]
    | some triple =>
      obtain ⟨line, sep, rest⟩ := triple
      have hrec := processBufferFuel_join fuel rest
      have hbuf := (splitNext_spec buffer line sep rest h).1
      simp only [Menu.processBufferFuel, h, Menu.joinPieces, List.foldr_cons] at hrec ⊢
      simp only [List.append_assoc]
      simp only [List.append_assoc] at hrec
      rw [hrec, hbuf]
      simp [List.append_assoc]

/-- Fuel `buffer.length` always suffices: the loop runs until no separator
remains. -/
theorem processBufferFuel_complete :
    ∀ (fuel : Nat) (buffer : List Char), buffer.length ≤ fuel →
      Menu.splitNext (Menu.processBufferFuel fuel buffer).2 = none
  | 0, buffer, h => by
    have hb : buffer = [] := List.length_eq_zero.mp (Nat.le_zero.mp h)
    subst hb
    rfl
  | fuel + 1, buffer, h => by
    cases hsn : Menu.splitNext buffer with
    | none => simp only [Menu.processBufferFuel, hsn]
    | some triple =>
      obtain ⟨line, sep, rest⟩ := triple
      have hlt := splitNext_rest_lt buffer line sep rest hsn
      simp only [Menu.processBufferFuel, hsn]
      exact processBufferFuel_complete fuel rest (by omega)

/-- C5, counterexample: the buffer `"a\rb\n"` holds no `"\r\n"`, so the loop
splits at the first `"\n"` and emits the single line `"a\rb"` — a produced
line that does contain a carriage-return character. -/
theorem C5_counterexample :
    Menu.processBuffer ['a', '\r', 'b', '\n'] = ([(['a', '\r', 'b'], ['\n'])], []) ∧
    '\r' ∈ (['a', '\r', 'b'] : List Char) := by decide

/-- C5, amended: each iteration splits at the first occurrence of `"\r\n"`,
else `"\n"`, else `"\r"`, in that priority order; the buffer decomposes as
`line ++ sep ++ rest`, so lines are produced in input order and concatenate
back to the consumed input; a `"\r\n"` pair inside one buffer is never split
(no `"\n"`-split line ends in `"\r"`, no `"\r"`-split is followed by `"\n"`);
but a produced line may itself contain lower-priority separator characters
that occur before the chosen split point. -/
theorem C5_amended_splitter :
    (∀ buffer line sep rest : List Char,
      Menu.splitNext buffer = some (line, sep, rest) →
      buffer = line ++ sep ++ rest ∧
      (sep = ['\r', '\n'] ∨ sep = ['\n'] ∨ sep = ['\r']) ∧
      (sep = ['\n'] → ∀ l2 : List Char, line ≠ l2 ++ ['\r']) ∧
      (sep = ['\r'] → ∀ r2 : List Char, rest ≠ '\n' :: r2)) ∧
    (∀ buffer : List Char,
      Menu.joinPieces (Menu.processBuffer buffer).1 ++ (Menu.processBuffer buffer).2 =
        buffer ∧
      Menu.splitNext (Menu.processBuffer buffer).2 = none) :=
  ⟨splitNext_spec, fun buffer =>
    ⟨processBufferFuel_join buffer.length buffer,
     processBufferFuel_complete buffer.length buffer le_rfl⟩⟩

/-- Witness for C5: the step applied to `"a\nb"` splits at the newline. -/
theorem C5_witness :
    (['a', '\n', 'b'] : List Char) = ['a'] ++ ['\n'] ++ ['b'] ∧
    ((['\n'] : List Char) = ['\r', '\n'] ∨ (['\n'] : List Char) = ['\n'] ∨
      (['\n'] : List Char) = ['\r']) :=
  have h := C5_amended_splitter.1 ['a', '\n', 'b'] ['a'] ['\n'] ['b'] (by decide)
  ⟨h.1, h.2.1⟩

/-! ### The session buffers (`container_action_menu.py`) -/

/-- Python `insert(-1, entry)` grows the list by exactly one element. -/
theorem insertBeforeLast_length :
    ∀ (l : List String) (e : String), (Menu.insertBeforeLast l e).length = l.length + 1
  | [], _ => rfl
  | [_], _ => rfl
  | x :: y :: rest, e => by
    simp only [Menu.insertBeforeLast, List.length_cons]
    rw [insertBeforeLast_length (y :: rest) e]
    simp

/-- The log buffer update preserves the 1000-line cap. -/
theorem appendLogLine_cap (lines : List String) (line : String)
    (h : lines.length ≤ 1000) : (Menu.appendLogLine lines line).length ≤ 1000 := by
  unfold Menu.appendLogLine
  by_cases h2 : 1000 < (lines ++ [line]).length
  · rw [if_pos h2]
    simp only [List.length_drop, List.length_append, List.length_cons, List.length_nil]
    omega
  · rw [if_neg h2]
    simp only [List.length_append, List.length_cons, List.length_nil] at h2 ⊢
    omega

/-- Folding log lines into a bounded buffer keeps exactly the most recent
1000 of `acc ++ xs`, in order. -/
theorem foldl_appendLogLine :
    ∀ (xs acc : List String), acc.length ≤ 1000 →
      List.foldl Menu.appendLogLine acc xs =
        (acc ++ xs).drop (acc.length + xs.length - 1000)
  | [], acc, h => by
    simp [Nat.sub_eq_zero_of_le h]
  | x :: xs, acc, h => by
    rw [List.foldl_cons]
    by_cases hc : acc.length = 1000
    · have hgt : 1000 < (acc ++ [x]).length := by simp [hc]
      have hstep : Menu.appendLogLine acc x = (acc ++ [x]).drop 1 := by
        unfold Menu.appendLogLine
        rw [if_pos hgt]
      have hdl : ((acc ++ [x]).drop 1).length = 1000 := by simp [hc]
      rw [hstep, foldl_appendLogLine xs ((acc ++ [x]).drop 1) (le_of_eq hdl), hdl]
      rw [← List.drop_append_of_le_length (by simp : 1 ≤ (acc ++ [x]).length)]
      rw [List.drop_drop]
      rw [List.append_assoc, List.singleton_append]
      have hidx : 1 + (1000 + xs.length - 1000) = acc.length + (x :: xs).length - 1000 := by
        simp only [List.length_cons]
        omega
      rw [hidx]
    · have hlt : acc.length < 1000 := lt_of_le_of_ne h hc
      have hstep : Menu.appendLogLine acc x = acc ++ [x] := by
        unfold Menu.appendLogLine
        rw [if_neg (by simp; omega)]
      have hlen : (acc ++ [x]).length ≤ 1000 := by simp; omega
      rw [hstep, foldl_appendLogLine xs (acc ++ [x]) hlen]
      rw [List.append_assoc, List.singleton_append]
      have hidx : (acc ++ [x]).length + xs.length - 1000 =
          acc.length + (x :: xs).length - 1000 := by
        simp only [List.length_append, List.length_cons, List.length_nil]
        omega
      rw [hidx]

/-- The lazy truncation step of the shell buffer, spelled out. -/
theorem handleShellLine_lazy (lines : List String) (clean lend : String)
    (h1 : strippedEmpty clean = false) (h2 : 1000 < lines.length) :
    Menu.handleShellLine lines clean lend =
      Menu.insertBeforeLast (lines.drop (lines.length - 900) ++ [Menu.truncationMarker])
        (clean ++ lend) := by
  unfold Menu.handleShellLine
  rw [if_pos h1, if_pos h2]

/-- C4, counterexample: starting from the three-line post-connect buffer,
998 non-blank output lines leave the shell buffer at 1001 lines — over the
1000-line cap (the truncation runs only on the next non-blank line). -/
theorem C4_counterexample :
    1000 < (Menu.feedShellLines Menu.shellStartBuffer (List.replicate 998 ("x"))).length := by
  have hgrow : ∀ (n : Nat) (start : List String), start.length + n ≤ 1001 →
      (Menu.feedShellLines start (List.replicate n ("x"))).length = start.length + n := by
    intro n
    induction n with
    | zero => intro start h; simp [Menu.feedShellLines]
    | succ k ih =>
      intro start h
      have hle : start.length ≤ 1000 := by omega
      have hstep : (Menu.handleShellLine start ("x") ("\n")).length = start.length + 1 := by
        unfold Menu.handleShellLine
        rw [if_pos (by decide), if_neg (by omega), insertBeforeLast_length]
      have hfeed : Menu.feedShellLines start (List.replicate (k + 1) ("x")) =
          Menu.feedShellLines (Menu.handleShellLine start ("x") ("\n"))
            (List.replicate k ("x")) := by
        simp [Menu.feedShellLines, List.replicate_succ]
      rw [hfeed, ih (Menu.handleShellLine start ("x") ("\n")) (by omega), hstep]
      omega
  have h3 : Menu.shellStartBuffer.length = 3 := by simp [Menu.shellStartBuffer]
  rw [hgrow 998 Menu.shellStartBuffer (by rw [h3]), h3]
  omega

/-- C4, amended: the log buffer obeys the claim exactly — its length never
exceeds 1000 after a line and any append sequence leaves exactly the most
recent 1000 lines in order (strict FIFO).  The cap of the shell buffer is lazy and
applies only to non-blank lines: a non-blank line arriving with the buffer at
or under 1000 lines just grows it by one (so it can reach 1001); one arriving
with the buffer over 1000 lines first cuts it to its newest 900 lines plus an
"older output truncated" marker; a blank line is inserted with no cap check
at all. -/
theorem C4_amended_buffers :
    (∀ (lines : List String) (line : String), lines.length ≤ 1000 →
      (Menu.appendLogLine lines line).length ≤ 1000) ∧
    (∀ xs : List String,
      List.foldl Menu.appendLogLine [] xs = xs.drop (xs.length - 1000)) ∧
    (∀ (lines : List String) (clean lend : String),
      strippedEmpty clean = false → 1000 < lines.length →
      Menu.handleShellLine lines clean lend =
        Menu.insertBeforeLast
          (lines.drop (lines.length - 900) ++ [Menu.truncationMarker]) (clean ++ lend)) ∧
    (∀ (lines : List String) (clean lend : String),
      strippedEmpty clean = false → lines.length ≤ 1000 →
      (Menu.handleShellLine lines clean lend).length = lines.length + 1) ∧
    (∀ (lines : List String) (clean lend : String),
      strippedEmpty clean = true →
      (Menu.handleShellLine lines clean lend).length = lines.length + 1) := by
  refine ⟨appendLogLine_cap, fun xs => ?_, handleShellLine_lazy,
    fun lines clean lend h1 h2 => ?_, fun lines clean lend h1 => ?_⟩
  · rw [foldl_appendLogLine xs [] (by simp)]
    simp
  · unfold Menu.handleShellLine
    rw [if_pos h1, if_neg (by omega), insertBeforeLast_length]
  · unfold Menu.handleShellLine
    rw [if_neg (by simp [h1]), insertBeforeLast_length]

/-- Witness for C4: an append to an empty log buffer stays under the cap, and
a non-blank shell line grows a small buffer by one. -/
theorem C4_witness :
    (Menu.appendLogLine [] ("a")).length ≤ 1000 ∧
    (Menu.handleShellLine [("$ ")] ("x") ("\n")).length = 2 :=
  ⟨C4_amended_buffers.1 [] ("a") (by simp),
   by
    have h := C4_amended_buffers.2.2.2.1 [("$ ")] ("x") ("\n") (by decide) (by simp)
    simpa using h⟩

/-! ### The reconciliation pass (`managers/docker_manager.py`) -/

/-- Every 7-tuple produced by `service.get_projects_with_containers` fails
the five-target manager unpack `_, cid, name, image, status = t`. -/
theorem unpack5_tuple7 (t : Service.Tuple7) :
    Manager.unpack5 [Manager.PyVal.i t.idx, Manager.PyVal.s t.cid, Manager.PyVal.s t.name,
      Manager.PyVal.s t.image, Manager.PyVal.s t.status, Manager.PyVal.s t.ports,
      Manager.PyVal.s t.created] = .error Manager.tooMany5 := rfl

/-- Python `update_status` never touches the identity fields of a card. -/
theorem cardsUpdateStatus_skeleton (m : List (Manager.PyVal × Manager.ContainerCard))
    (k s : Manager.PyVal) :
    Manager.registrySkeleton (Manager.cardsUpdateStatus m k s) =
      Manager.registrySkeleton m := by
  unfold Manager.registrySkeleton Manager.cardsUpdateStatus
  rw [List.map_map]
  apply List.map_congr_left
  intro p _
  by_cases h : p.1 = k <;> simp [h, Manager.cardSkeleton]

/-- The fast-path per-id update changes nothing but card statuses. -/
theorem updateCardStatus_frame (st : Manager.ManagerState) (cid status : Manager.PyVal) :
    Manager.registrySkeleton (Manager.updateCardStatus st cid status).cards =
      Manager.registrySkeleton st.cards ∧
    Manager.registrySkeleton (Manager.updateCardStatus st cid status).uncategorizedCards =
      Manager.registrySkeleton st.uncategorizedCards ∧
    (Manager.updateCardStatus st cid status).projectTreeNodes = st.projectTreeNodes ∧
    (Manager.updateCardStatus st cid status).lastContainers = st.lastContainers ∧
    (Manager.updateCardStatus st cid status).currentProject = st.currentProject ∧
    (Manager.updateCardStatus st cid status).refreshing = st.refreshing := by
  unfold Manager.updateCardStatus
  cases h1 : Manager.cardsLookup st.cards cid with
  | some c => simp [cardsUpdateStatus_skeleton]
  | none =>
    cases h2 : Manager.cardsLookup st.uncategorizedCards cid with
    | some c => simp [cardsUpdateStatus_skeleton]
    | none => simp

/-- The whole fast-path loop changes nothing but card statuses. -/
theorem fastUpdate_frame :
    ∀ (snap : Manager.Snapshot) (st : Manager.ManagerState),
      Manager.registrySkeleton (Manager.fastUpdate snap st).cards =
        Manager.registrySkeleton st.cards ∧
      Manager.registrySkeleton (Manager.fastUpdate snap st).uncategorizedCards =
        Manager.registrySkeleton st.uncategorizedCards ∧
      (Manager.fastUpdate snap st).projectTreeNodes = st.projectTreeNodes ∧
      (Manager.fastUpdate snap st).lastContainers = st.lastContainers ∧
      (Manager.fastUpdate snap st).currentProject = st.currentProject ∧
      (Manager.fastUpdate snap st).refreshing = st.refreshing
  | [], st => ⟨rfl, rfl, rfl, rfl, rfl, rfl⟩
  | p :: rest, st => by
    have hstep := updateCardStatus_frame st p.1 p.2.2.2
    have hrec := fastUpdate_frame rest (Manager.updateCardStatus st p.1 p.2.2.2)
    have hcons : Manager.fastUpdate (p :: rest) st =
        Manager.fastUpdate rest (Manager.updateCardStatus st p.1 p.2.2.2) := rfl
    rw [hcons]
    exact ⟨hrec.1.trans hstep.1, hrec.2.1.trans hstep.2.1,
      hrec.2.2.1.trans hstep.2.2.1, hrec.2.2.2.1.trans hstep.2.2.2.1,
      hrec.2.2.2.2.1.trans hstep.2.2.2.2.1, hrec.2.2.2.2.2.trans hstep.2.2.2.2.2⟩

/-- The fast-path contract the spec describes, for ticks whose snapshot
build succeeds (five-element tuples) with unchanged ids and `(name, image)`
pairs: the pass reports no error, leaves the project tree untouched, creates
and removes no card (identity fields of both registries are unchanged — only
statuses may differ), and installs the new snapshot. -/
theorem fast_path_only_status_updates (ap : List (String × List Manager.PyTuple))
    (st : Manager.ManagerState) (snap : Manager.Snapshot)
    (hr : st.refreshing = false)
    (hsnap : Manager.buildSnapshot ap [] = .ok snap)
    (hfast : (Manager.sameKeySet snap st.lastContainers &&
      Manager.namesImagesUnchanged snap st.lastContainers) = true) :
    (Manager.refresh_projects ap st).2 = none ∧
    (Manager.refresh_projects ap st).1.projectTreeNodes = st.projectTreeNodes ∧
    Manager.registrySkeleton (Manager.refresh_projects ap st).1.cards =
      Manager.registrySkeleton st.cards ∧
    Manager.registrySkeleton (Manager.refresh_projects ap st).1.uncategorizedCards =
      Manager.registrySkeleton st.uncategorizedCards ∧
    (Manager.refresh_projects ap st).1.lastContainers = snap := by
  have hframe := fastUpdate_frame snap { st with refreshing := true }
  simp only [Manager.refresh_projects, hr, Bool.false_eq_true, if_false,
    Manager.refreshBody, hsnap, hfast, if_true]
  exact ⟨trivial, hframe.2.2.1, hframe.1, hframe.2.1, trivial⟩

/-- C1: the claimed fast path is unreachable in the code as shipped — the
service returns 7-tuples while `refresh_projects` unpacks five targets, so a
tick with one running container raises `ValueError` while building the
snapshot and leaves the whole manager state unchanged (no status update at
all), instead of updating statuses in place. -/
theorem C1_failing_tick :
    Manager.refresh_projects
      [(Service.uncategorizedKey,
        [[Manager.PyVal.i 1, Manager.PyVal.s ("abc123def456"), Manager.PyVal.s ("web"),
          Manager.PyVal.s ("nginx:latest"), Manager.PyVal.s ("Up 5 seconds"),
          Manager.PyVal.s (""), Manager.PyVal.s ("2024-01-01 00:00")]])]
      ⟨[], [], [], [], none, false⟩ =
      (⟨[], [], [], [], none, false⟩, some Manager.tooMany5) := rfl

/-- Witness for C10: the empty successful poll produces the non-empty
`"No Projects"` placeholder mapping. -/
theorem C10_witness :
    Service.get_projects_with_containers (fun _ => "") (.resp 200 []) =
      .ok [(Service.noProjectsKey, [Service.noContainersTuple])] ∧
    ([(Service.noProjectsKey, [Service.noContainersTuple])] : Service.ProjectMap) ≠ [] :=
  ⟨C10_placeholder_and_keys.1 (fun _ => ""),
   (C10_placeholder_and_keys.2 (fun _ => "") (.resp 200 [])
     [(Service.noProjectsKey, [Service.noContainersTuple])]
     (C10_placeholder_and_keys.1 (fun _ => ""))).1⟩

end DockerSpec
